import Mathlib

/-!
Verification development for the song-buddy teleprompter repository.

JavaScript numbers are modelled as rationals (`ℚ`), machine floating point
being irrelevant to the claims checked here (all stated "within floating
rounding" or purely comparison/branching logic).  DOM `scrollTop` assignment
clamps to `[0, scrollHeight - clientHeight]`, modelled by `domClamp`.
`String.prototype.localeCompare` is embedded as the sign of Lean's total
order on `String`; the claims checked do not depend on which total order the
locale induces.
-/

namespace SongBuddy

/-- Play state of the prompter (`PlayState` in `types.ts`). -/
inductive PlayState where
  | stopped
  | playing
  | paused
deriving DecidableEq, Repr

/-! ## Metronome scheduler (`src/services/audio.ts`, `useMetronome`) -/

/-- Transient scheduling state of the metronome: the refs
`nextNoteTimeRef` and `currentBeatRef` in `useMetronome`. -/
structure MetroState where
  nextNoteTime : ℚ
  currentBeat : ℕ
deriving DecidableEq, Repr

/-- `scheduleAheadTime = 0.1` seconds in `useMetronome`. -/
def scheduleAheadTime : ℚ := 1 / 10

/-- `nextNote` from `src/services/audio.ts` lines 203-210: advance
`nextNoteTime` by `60.0 / bpm` and cycle the beat index modulo
`beatsPerBar` (increment, reset to `0` once it reaches `beatsPerBar`). -/
def nextNote (bpm : ℚ) (beatsPerBar : ℕ) (s : MetroState) : MetroState :=
  let secondsPerBeat : ℚ := 60 / bpm
  let beat := s.currentBeat + 1
  { nextNoteTime := s.nextNoteTime + secondsPerBeat
    currentBeat := if beat ≥ beatsPerBar then 0 else beat }

/-- One event passed to `scheduleNote`: the beat index and the absolute
audio-clock time, annotated with the bpm in effect when it was scheduled. -/
structure SchedEvent where
  bpm : ℚ
  beat : ℕ
  time : ℚ
deriving DecidableEq, Repr

/-- The body of the `while` loop of `scheduler` (`src/services/audio.ts`
lines 329-338), indexed by fuel: while `nextNoteTime < deadline`, emit
`(currentBeat, nextNoteTime)` to `scheduleNote` and advance via `nextNote`.
`schedulerPoll` supplies fuel that provably never runs out
(`schedulerLoop_complete`), so this equals the source's unbounded loop. -/
def schedulerLoop (bpm : ℚ) (beatsPerBar : ℕ) (deadline : ℚ) :
    ℕ → MetroState → List SchedEvent × MetroState
  | 0, s => ([], s)
  | fuel + 1, s =>
    if s.nextNoteTime < deadline then
      let r := schedulerLoop bpm beatsPerBar deadline fuel (nextNote bpm beatsPerBar s)
      (⟨bpm, s.currentBeat, s.nextNoteTime⟩ :: r.1, r.2)
    else ([], s)

/-- Upper bound on the number of iterations of the `scheduler` while loop:
each iteration advances `nextNoteTime` by `60 / bpm`. -/
def pollFuel (bpm deadline : ℚ) (s : MetroState) : ℕ :=
  ⌈(deadline - s.nextNoteTime) * bpm / 60⌉.toNat

/-- `scheduler` from `src/services/audio.ts` lines 329-338: schedule every
note due before `currentTime + scheduleAheadTime`. -/
def schedulerPoll (bpm : ℚ) (beatsPerBar : ℕ) (currentTime : ℚ) (s : MetroState) :
    List SchedEvent × MetroState :=
  schedulerLoop bpm beatsPerBar (currentTime + scheduleAheadTime)
    (pollFuel bpm (currentTime + scheduleAheadTime) s) s

/-- A sequence of worker `tick` invocations of `scheduler`; each poll carries
the bpm in effect (`bpmRef`) and the audio clock reading
(`audioContext.currentTime`) at that poll.  Returns all scheduled events in
order together with the final scheduling state. -/
def runPolls (beatsPerBar : ℕ) : List (ℚ × ℚ) → MetroState → List SchedEvent × MetroState
  | [], s => ([], s)
  | (bpm, currentTime) :: ps, s =>
    let r := schedulerPoll bpm beatsPerBar currentTime s
    let rest := runPolls beatsPerBar ps r.2
    (r.1 ++ rest.1, rest.2)

/-- The sound banks of `useMetronome`. -/
inductive SoundType where
  | beep
  | drums
deriving DecidableEq, Repr

/-- The percussive/tonal event a call to `scheduleNote` synthesizes. -/
inductive ClickSound where
  | beep (freq : ℚ)
  | kick
  | snare
  | hihat
deriving DecidableEq, Repr

/-- Sound selection of `scheduleNote` (`src/services/audio.ts` lines
212-327).  Beep mode: beat 0 at the configured pitch, other beats at
`pitch * 0.66`.  Drums mode: `isSnare = (beatsPerBar == 4 && (beat == 1 ||
beat == 3))`, `isKick = (beat == 0) || (beatsPerBar == 4 && beat == 2)`;
kick if `isKick`, else snare if `isSnare`, else hi-hat. -/
def scheduleNoteSound (soundType : SoundType) (pitch : ℚ)
    (beatsPerBar beatNumber : ℕ) : ClickSound :=
  match soundType with
  | .beep => if beatNumber = 0 then .beep pitch else .beep (pitch * 66 / 100)
  | .drums =>
    let isSnare := beatsPerBar = 4 ∧ (beatNumber = 1 ∨ beatNumber = 3)
    let isKick := beatNumber = 0 ∨ (beatsPerBar = 4 ∧ beatNumber = 2)
    if isKick then .kick
    else if isSnare then .snare
    else .hihat

/-! ## Loudness auto-start trigger (`src/components/Prompter.tsx`, `analyzeAudio`) -/

/-- `REQUIRED_CONFIDENCE_FRAMES = 10` in `Prompter.tsx`. -/
def REQUIRED_CONFIDENCE_FRAMES : ℤ := 10

/-- The near-end suppression threshold `0.99` of `analyzeAudio`, written as
`mkRat 99 100` (the same rational; see `NEAR_END_PROGRESS_eq`). -/
def NEAR_END_PROGRESS : ℚ := mkRat 99 100

/-- Mutable state read and written by one `analyzeAudio` frame:
`triggerConfidenceCounterRef`, `playStateRef`, and the `isListening` UI
state. -/
structure TriggerState where
  confidence : ℤ
  playState : PlayState
  isListening : Bool
deriving DecidableEq, Repr

/-- Per-frame inputs of `analyzeAudio`: the enable flag, whether
`Date.now() < audioCooldownRef.current`, the current progress fraction,
whether a touch-scroll is in flight (`isScrollingRef`), the computed volume
(`min(100, rms * 350)`) and the threshold slider value. -/
structure FrameInput where
  autoStartEnabled : Bool
  cooldownActive : Bool
  progress : ℚ
  isTouching : Bool
  volume : ℚ
  threshold : ℚ

/-- Confidence-counter update of `analyzeAudio`: increment when the volume
exceeds the threshold, else decrement with floor zero
(`Math.max(0, counter - 1)`). -/
def confStep (volume threshold : ℚ) (c : ℤ) : ℤ :=
  if volume > threshold then c + 1 else max 0 (c - 1)

/-- Trigger logic of one `analyzeAudio` frame (`Prompter.tsx` lines
330-362).  When auto-start is enabled, playback is not active, no cooldown
is pending, progress is not past `0.99` and the user is not touch-scrolling,
the confidence counter is updated and, on reaching
`REQUIRED_CONFIDENCE_FRAMES`, the play state transitions to PLAYING and the
counter resets; in every other case the counter resets to `0`. -/
def analyzeFrame (f : FrameInput) (s : TriggerState) : TriggerState :=
  let isAtEnd := f.progress > NEAR_END_PROGRESS
  let isNotPlaying := s.playState ≠ .playing
  if f.autoStartEnabled = true ∧ isNotPlaying ∧ ¬f.cooldownActive = true ∧
      ¬isAtEnd ∧ ¬f.isTouching = true then
    let c := confStep f.volume f.threshold s.confidence
    if c ≥ REQUIRED_CONFIDENCE_FRAMES then
      { confidence := 0, playState := .playing, isListening := false }
    else
      { confidence := c, playState := s.playState, isListening := true }
  else
    { confidence := 0, playState := s.playState, isListening := false }

/-- Whether a frame performs the auto-start transition (the one-shot
trigger): the play state was not PLAYING and becomes PLAYING. -/
def triggerFires (f : FrameInput) (s : TriggerState) : Bool :=
  decide (s.playState ≠ .playing ∧ (analyzeFrame f s).playState = .playing)

/-! ## Scroll animation (`Prompter.tsx` `animate`, `LiveMode.tsx` `scroll`) -/

/-- DOM semantics of assigning `element.scrollTop`: the value is clamped to
`[0, scrollHeight - clientHeight]` (and to `0` when the content fits). -/
def domClamp (maxScroll x : ℚ) : ℚ := min (max x 0) (max maxScroll 0)

/-- State touched by one `animate` frame in `Prompter.tsx`: the scroller's
`scrollTop`, the `progress` React state and the play state. -/
structure PrompterFrame where
  scrollTop : ℚ
  progress : ℚ
  playState : PlayState
deriving DecidableEq, Repr

/-- One `animate` tick of `Prompter.tsx` (lines 370-402), as a function of
the elapsed `deltaTime` in milliseconds.  Early-returns unless PLAYING;
skips if a touch-scroll is active; otherwise adds
`scrollSpeed * 15 * deltaTime / 1000` pixels to `scrollTop` (DOM-clamped),
and if `maxScroll > 0` recomputes `progress = min(scrollTop / maxScroll, 1)`
and transitions to PAUSED once `scrollTop >= maxScroll`. -/
def prompterAnimate (scrollSpeed deltaTime maxScroll : ℚ) (isScrolling : Bool)
    (s : PrompterFrame) : PrompterFrame :=
  if s.playState ≠ .playing then s
  else if isScrolling then s
  else
    let pixelsPerSecond := scrollSpeed * 15
    let pixelsToScroll := pixelsPerSecond * deltaTime / 1000
    let newTop := domClamp maxScroll (s.scrollTop + pixelsToScroll)
    if maxScroll > 0 then
      { scrollTop := newTop
        progress := min (newTop / maxScroll) 1
        playState := if newTop ≥ maxScroll then .paused else s.playState }
    else
      { s with scrollTop := newTop }

/-- The manual-scroll (`onScroll`) handler of `Prompter.tsx` lines 525-530:
when `maxScroll > 0` report `min(scrollTop / maxScroll, 1)`, otherwise leave
the progress state untouched. -/
def onScrollProgress (maxScroll scrollTop progress : ℚ) : ℚ :=
  if maxScroll > 0 then min (scrollTop / maxScroll) 1 else progress

/-- Position update of one `scroll` tick of `LiveMode.tsx` (lines 86-110),
`deltaTime` in seconds: `moveAmount = scrollspeed * deltaTime` is added to
`scrollTop` (DOM-clamped to `[0, maxScroll]`) only when `moveAmount > 0`.
`maxScroll` stands for `scrollHeight - clientHeight`. -/
def liveModeScroll (scrollspeed deltaTime maxScroll scrollTop : ℚ) : ℚ :=
  let moveAmount := scrollspeed * deltaTime
  if moveAmount > 0 then domClamp maxScroll (scrollTop + moveAmount) else scrollTop

/-! ## Song data model (`src/types.ts`) -/

/-- `AudioTriggerConfig` from `types.ts`. -/
structure AudioTriggerConfig where
  threshold : ℚ
deriving DecidableEq, Repr

/-- `MetronomeConfig` from `types.ts`. -/
structure MetronomeConfig where
  bpm : ℚ
  beatsPerBar : ℚ
  clickPitch : ℚ
  enabled : Bool
deriving DecidableEq, Repr

/-- `Song` from `types.ts` (the variant stored by `storageService`). -/
structure Song where
  id : String
  title : String
  lyrics : String
  fontsize : ℚ
  scrollspeed : ℚ
  audioTrigger : AudioTriggerConfig
  metronome : MetronomeConfig
  order : Option ℤ
  createdAt : ℚ
deriving DecidableEq, Repr

/-! ## Library persistence (`storageService`, `src/unnamed/part_006`) -/

/-- `Number.MAX_SAFE_INTEGER`, that is `2 ^ 53 - 1`. -/
def MAX_SAFE_INTEGER : ℤ := 9007199254740991

/-- Model of `a.localeCompare(b)` as a sign: negative when `a` sorts before
`b`, positive when after, zero on equal, using Lean's total order on
`String` as the collation. -/
def localeCompare (a b : String) : ℤ :=
  if a < b then -1 else if b < a then 1 else 0

/-- Effective sort key of a song: `song.order ?? Number.MAX_SAFE_INTEGER`. -/
def effOrder (s : Song) : ℤ := s.order.getD MAX_SAFE_INTEGER

/-- The comparator of `getAllSongs` (`part_006` lines 19-27): compare the
effective order fields; on a tie fall back to `title.localeCompare`. -/
def songCompare (a b : Song) : ℤ :=
  let orderA := effOrder a
  let orderB := effOrder b
  if orderA ≠ orderB then orderA - orderB
  else localeCompare a.title b.title

/-- The ordering induced by the comparator: `a` may precede `b` exactly when
the comparator is non-positive. -/
def songLE (a b : Song) : Prop := songCompare a b ≤ 0

instance : DecidableRel songLE :=
  fun a b => inferInstanceAs (Decidable (songCompare a b ≤ 0))

/-- `getAllSongs` (`part_006` lines 13-28): the stored songs sorted with the
comparator.  `Array.prototype.sort` is a stable comparison sort; it is
embedded as insertion sort. -/
def getAllSongs (stored : List Song) : List Song :=
  List.insertionSort songLE stored

/-- A parsed song object as found in import JSON: any subset of the fields
may be present (`JSON.parse` of a partial/old schema). -/
structure RawAudioTrigger where
  threshold : Option ℚ
deriving DecidableEq, Repr

/-- Parsed `metronome` sub-object with optional fields. -/
structure RawMetronome where
  bpm : Option ℚ
  beatsPerBar : Option ℚ
  clickPitch : Option ℚ
  enabled : Option Bool
deriving DecidableEq, Repr

/-- Parsed song object with every field optional. -/
structure RawSong where
  id : Option String
  title : Option String
  lyrics : Option String
  fontsize : Option ℚ
  scrollspeed : Option ℚ
  audioTrigger : Option RawAudioTrigger
  metronome : Option RawMetronome
  order : Option ℤ
  createdAt : Option ℚ
deriving DecidableEq, Repr

/-- JavaScript truthiness of an optional string: present and non-empty. -/
def truthyStr : Option String → Bool
  | some s => decide (s ≠ "")
  | none => false

/-- The parsed shapes `importLibrary` recognizes: a bare array of songs, a
`{version, songs}` library object, or a single song object.  `JSON.parse ∘
JSON.stringify` is the identity on these shapes, so the serialized-text
layer is elided. -/
inductive Parsed where
  | arr (songs : List RawSong)
  | lib (version : Option ℚ) (songs : List RawSong)
  | single (s : RawSong)

/-- Format dispatch of `importLibrary` (`part_006` lines 63-74): arrays and
library objects yield their song list; a single object is accepted when its
`title` and `lyrics` are truthy; anything else is an unrecognized format. -/
def songsToImportOf : Parsed → Except String (List RawSong)
  | .arr l => .ok l
  | .lib _ l => .ok l
  | .single r =>
    if truthyStr r.title = true ∧ truthyStr r.lyrics = true then .ok [r]
    else .error "Unrecognized file format. JSON must be a Song Library, a list of songs, or a single song."

/-- Per-entry validation and default merge of `importLibrary` (`part_006`
lines 77-94): an entry with truthy `id` and `title` is merged field-by-field
over `DEFAULT_SONG` (`types.ts`: fontsize 48, scrollspeed 30, threshold -35,
metronome 120 bpm / 4 beats / 1000 Hz / disabled), with `id` preserved and
`createdAt = rawSong.createdAt || Date.now()`; other entries are skipped. -/
def importOne (raw : RawSong) (now : ℚ) : Option Song :=
  if truthyStr raw.id = true ∧ truthyStr raw.title = true then
    some
      { id := raw.id.getD ""
        title := raw.title.getD ""
        lyrics := raw.lyrics.getD ""
        fontsize := raw.fontsize.getD 48
        scrollspeed := raw.scrollspeed.getD 30
        audioTrigger := ⟨(raw.audioTrigger.bind (fun t => t.threshold)).getD (-35)⟩
        metronome :=
          { bpm := (raw.metronome.bind (fun m => m.bpm)).getD 120
            beatsPerBar := (raw.metronome.bind (fun m => m.beatsPerBar)).getD 4
            clickPitch := (raw.metronome.bind (fun m => m.clickPitch)).getD 1000
            enabled := (raw.metronome.bind (fun m => m.enabled)).getD false }
        order := raw.order
        createdAt :=
          match raw.createdAt with
          | some c => if c = 0 then now else c
          | none => now }
  else none

/-- `importLibrary` (`part_006` lines 51-106): dispatch on the parsed shape,
validate and merge each entry, and fail with `"No valid songs found"` when
entries were present but none validated.  Returns the saved songs and the
reported count. -/
def importLibrary (p : Parsed) (now : ℚ) : Except String (List Song × ℕ) :=
  match songsToImportOf p with
  | .error e => .error e
  | .ok songsToImport =>
    let imported := songsToImport.filterMap (fun r => importOne r now)
    if imported.length = 0 ∧ songsToImport.length > 0 then
      .error "No valid songs found (IDs or Titles missing)."
    else
      .ok (imported, imported.length)

/-- `JSON.stringify` of a stored `Song`: every field of the record is
present in the serialized object (the optional `order` key only when the
song has one). -/
def songToRaw (s : Song) : RawSong :=
  { id := some s.id
    title := some s.title
    lyrics := some s.lyrics
    fontsize := some s.fontsize
    scrollspeed := some s.scrollspeed
    audioTrigger := some ⟨some s.audioTrigger.threshold⟩
    metronome := some ⟨some s.metronome.bpm, some s.metronome.beatsPerBar,
      some s.metronome.clickPitch, some s.metronome.enabled⟩
    order := s.order
    createdAt := some s.createdAt }

/-- `exportLibrary` (`part_006` lines 42-49): serialize
`{version: 1, songs: await getAllSongs()}`. -/
def exportLibrary (stored : List Song) : Parsed :=
  .lib (some 1) ((getAllSongs stored).map songToRaw)

/-! ## Bpm write paths (`LiveMode.tsx`, `SongEditor`) -/

/-- `adjustBpm` (`LiveMode.tsx` lines 218-224):
`Math.max(30, Math.min(300, bpm + delta))`. -/
def adjustBpmValue (bpm delta : ℚ) : ℚ := max 30 (min 300 (bpm + delta))

/-- The intervals between consecutive taps (`handleTapTempo`,
`LiveMode.tsx` lines 188-191). -/
def tapIntervals (taps : List ℚ) : List ℚ :=
  (taps.zip taps.tail).map fun p => p.2 - p.1

/-- The bpm `handleTapTempo` (`LiveMode.tsx` lines 172-215) computes and
persists from the recorded tap times: with at least two taps, average the
intervals, convert via `Math.round(60000 / avgInterval)` and clamp to
`[30, 300]`; with fewer taps nothing is written. -/
def tapTempoBpm (taps : List ℚ) : Option ℚ :=
  if taps.length ≥ 2 then
    let intervals := tapIntervals taps
    let avgInterval := intervals.sum / (intervals.length : ℚ)
    let calculatedBpm : ℤ := round ((60000 : ℚ) / avgInterval)
    some (max 30 (min 300 (calculatedBpm : ℚ)))
  else none

/-- The editor's bpm field (`SongEditor`, `handleMetronomeChange('bpm',
parseInt(value))`): the typed value is stored into the song record verbatim
and persisted by `handleSubmit` via `storageService.saveSong`. -/
def editorSetBpm (s : Song) (value : ℚ) : Song :=
  { s with metronome := { s.metronome with bpm := value } }

/-- A well-formed stored song used for concrete checks. -/
def sampleSong : Song :=
  { id := "s1", title := "T", lyrics := "la", fontsize := 48, scrollspeed := 30,
    audioTrigger := ⟨-35⟩, metronome := ⟨120, 4, 1000, false⟩,
    order := none, createdAt := 7 }

/-- Frame input of the auto-start scenario: armed, no cooldown, progress 0,
no touch, level above threshold (volume 50 against threshold 20). -/
def scenarioInput : FrameInput :=
  { autoStartEnabled := true, cooldownActive := false, progress := 0,
    isTouching := false, volume := 50, threshold := 20 }

/-- Starting state of the auto-start scenario: counter 0, not playing. -/
def scenarioStart : TriggerState :=
  { confidence := 0, playState := .stopped, isListening := false }

/-- A prompter frame mid-content, used for concrete scroll checks. -/
def midFrame : PrompterFrame :=
  { scrollTop := 100, progress := 1 / 2, playState := .playing }

/-- The parsed form of `{"title":"X","lyrics":"la"}` (no id). -/
def rawNoId : RawSong :=
  { id := none, title := some "X", lyrics := some "la", fontsize := none,
    scrollspeed := none, audioTrigger := none, metronome := none,
    order := none, createdAt := none }

/-- The same single-song object with an id added. -/
def rawWithId : RawSong := { rawNoId with id := some "abc" }

/-- A parsed entry lacking both identifier and title. -/
def rawEmpty : RawSong :=
  { id := none, title := none, lyrics := none, fontsize := none,
    scrollspeed := none, audioTrigger := none, metronome := none,
    order := none, createdAt := none }

/-- A stored song whose title is the empty string (falsy on import). -/
def emptyTitleSong : Song := { sampleSong with id := "e1", title := "" }

/-- A song with an explicit order of `Number.MAX_SAFE_INTEGER`. -/
def maxOrderSong : Song :=
  { sampleSong with id := "m", title := "B", order := some MAX_SAFE_INTEGER }

/-- A song with no order field. -/
def noOrderSong : Song := { sampleSong with id := "n", title := "A", order := none }

/-- Two concrete polls: 120 bpm at clock 0, then 60 bpm at clock 1. -/
def demoPolls : List (ℚ × ℚ) := [(120, 0), (60, 1)]

/-- A scheduling state whose first beat is due at 0.05 s. -/
def demoState : MetroState := { nextNoteTime := mkRat 1 20, currentBeat := 0 }

/-! ## Theorems -/

/-- The near-end threshold constant is the rational `0.99`. -/
theorem NEAR_END_PROGRESS_eq : NEAR_END_PROGRESS = 99 / 100 := by
  norm_num [NEAR_END_PROGRESS, Rat.mkRat_eq_div]

/-- C6: in drums mode, with `beatsPerBar = 4` the beats 0,1,2,3 synthesize
kick, snare, kick, snare; with `beatsPerBar = 3` beat 0 is a kick and beats
1 and 2 are hi-hats; for any other bar length every non-zero beat is a
hi-hat. -/
theorem drums_sound_mapping (pitch : ℚ) :
    (scheduleNoteSound .drums pitch 4 0 = .kick ∧
     scheduleNoteSound .drums pitch 4 1 = .snare ∧
     scheduleNoteSound .drums pitch 4 2 = .kick ∧
     scheduleNoteSound .drums pitch 4 3 = .snare) ∧
    (scheduleNoteSound .drums pitch 3 0 = .kick ∧
     scheduleNoteSound .drums pitch 3 1 = .hihat ∧
     scheduleNoteSound .drums pitch 3 2 = .hihat) ∧
    (∀ beatsPerBar beatNumber : ℕ, beatsPerBar ≠ 4 → beatNumber ≠ 0 →
      scheduleNoteSound .drums pitch beatsPerBar beatNumber = .hihat) := by
  refine ⟨⟨rfl, rfl, rfl, rfl⟩, ⟨rfl, rfl, rfl⟩, ?_⟩
  intro bpb beat h4 h0
  simp [scheduleNoteSound, h4, h0]

/-- Witness for `drums_sound_mapping`: a 5-beat bar maps beat 2 to
hi-hat. -/
theorem drums_sound_mapping_witness :
    (5 : ℕ) ≠ 4 ∧ (2 : ℕ) ≠ 0 ∧ scheduleNoteSound .drums 1000 5 2 = .hihat :=
  ⟨by decide, by decide, (drums_sound_mapping 1000).2.2 5 2 (by decide) (by decide)⟩

/-- C2: the auto-start transition to PLAYING happens only when the updated
confidence counter has reached `REQUIRED_CONFIDENCE_FRAMES` (10); and when
any suppression condition holds at a frame (already PLAYING, cooldown
active, progress past 0.99, or touch-scrolling) the counter resets to 0 and
the play state does not change. -/
theorem loudness_trigger_gate (f : FrameInput) (s : TriggerState) :
    ((analyzeFrame f s).playState = .playing → s.playState ≠ .playing →
      confStep f.volume f.threshold s.confidence ≥ REQUIRED_CONFIDENCE_FRAMES) ∧
    (s.playState = .playing ∨ f.cooldownActive = true ∨ f.progress > NEAR_END_PROGRESS ∨
        f.isTouching = true →
      (analyzeFrame f s).confidence = 0 ∧ (analyzeFrame f s).playState = s.playState) := by
  simp only [analyzeFrame]
  split_ifs with h1 h2
  · refine ⟨fun _ _ => h2, fun hsup => ?_⟩
    rcases hsup with h | h | h | h
    · exact absurd h h1.2.1
    · exact absurd h h1.2.2.1
    · exact absurd h h1.2.2.2.1
    · exact absurd h h1.2.2.2.2
  · refine ⟨fun hplay hnot => absurd hplay hnot, fun hsup => ?_⟩
    rcases hsup with h | h | h | h
    · exact absurd h h1.2.1
    · exact absurd h h1.2.2.1
    · exact absurd h h1.2.2.2.1
    · exact absurd h h1.2.2.2.2
  · exact ⟨fun hplay hnot => absurd hplay hnot, fun _ => ⟨rfl, rfl⟩⟩

/-- Witness for `loudness_trigger_gate`: a frame at confidence 9 with a loud
sample fires with the counter at 10, and a frame in cooldown resets the
counter without changing state. -/
theorem loudness_trigger_gate_witness :
    confStep 50 20 9 ≥ REQUIRED_CONFIDENCE_FRAMES ∧
    ((analyzeFrame { scenarioInput with cooldownActive := true }
        { confidence := 7, playState := .stopped, isListening := true }).confidence = 0 ∧
      (analyzeFrame { scenarioInput with cooldownActive := true }
        { confidence := 7, playState := .stopped, isListening := true }).playState = .stopped) :=
  ⟨(loudness_trigger_gate scenarioInput
      { confidence := 9, playState := .stopped, isListening := true }).1
      (by decide) (by decide),
    (loudness_trigger_gate { scenarioInput with cooldownActive := true }
      { confidence := 7, playState := .stopped, isListening := true }).2
      (Or.inr (Or.inl rfl))⟩

/-- C5: from a non-playing state with confidence 0 and no suppression, nine
above-threshold frames leave the state not playing (confidence 9), the
tenth frame fires the one-shot trigger (state PLAYING, confidence reset to
0), and that is the only firing in 15 frames: five further loud frames
leave the state PLAYING with no additional trigger. -/
theorem autostart_scenario :
    ((analyzeFrame scenarioInput)^[9] scenarioStart).playState = .stopped ∧
    ((analyzeFrame scenarioInput)^[9] scenarioStart).confidence = 9 ∧
    ((analyzeFrame scenarioInput)^[10] scenarioStart).playState = .playing ∧
    ((analyzeFrame scenarioInput)^[10] scenarioStart).confidence = 0 ∧
    ((List.range 15).filter
      (fun k => triggerFires scenarioInput ((analyzeFrame scenarioInput)^[k] scenarioStart)))
      = [9] ∧
    ((analyzeFrame scenarioInput)^[15] scenarioStart).playState = .playing := by
  decide

/-- One `nextNote` step strictly advances `nextNoteTime` when the bpm is
positive. -/
theorem nextNote_time_lt (bpm : ℚ) (bpb : ℕ) (s : MetroState) (hb : 0 < bpm) :
    s.nextNoteTime < (nextNote bpm bpb s).nextNoteTime := by
  simp only [nextNote]
  have h60 : 0 < 60 / bpm := by positivity
  linarith

/-- Every event emitted by the scheduler loop lies at or after the entry
`nextNoteTime` and strictly before the final `nextNoteTime`, which never
decreases. -/
theorem schedulerLoop_bounds (bpm : ℚ) (bpb : ℕ) (deadline : ℚ) (hb : 0 < bpm) :
    ∀ fuel s,
      (∀ e ∈ (schedulerLoop bpm bpb deadline fuel s).1,
        s.nextNoteTime ≤ e.time ∧
          e.time < (schedulerLoop bpm bpb deadline fuel s).2.nextNoteTime) ∧
      s.nextNoteTime ≤ (schedulerLoop bpm bpb deadline fuel s).2.nextNoteTime := by
  intro fuel
  induction fuel with
  | zero =>
    intro s
    exact ⟨fun e he => absurd he (List.not_mem_nil e), le_refl _⟩
  | succ n ih =>
    intro s
    by_cases hlt : s.nextNoteTime < deadline
    · simp only [schedulerLoop, if_pos hlt]
      have hstep := nextNote_time_lt bpm bpb s hb
      obtain ⟨ihmem, ihle⟩ := ih (nextNote bpm bpb s)
      constructor
      · intro e he
        rcases List.mem_cons.mp he with rfl | he2
        · exact ⟨le_refl _, lt_of_lt_of_le hstep ihle⟩
        · obtain ⟨l1, l2⟩ := ihmem e he2
          exact ⟨le_trans hstep.le l1, l2⟩
      · exact le_trans hstep.le ihle
    · simp only [schedulerLoop, if_neg hlt]
      exact ⟨fun e he => absurd he (List.not_mem_nil e), le_refl _⟩

/-- Within one scheduler loop run the emitted times are strictly
increasing. -/
theorem schedulerLoop_pairwise (bpm : ℚ) (bpb : ℕ) (deadline : ℚ) (hb : 0 < bpm) :
    ∀ fuel s, List.Pairwise (fun a b : SchedEvent => a.time < b.time)
      (schedulerLoop bpm bpb deadline fuel s).1 := by
  intro fuel
  induction fuel with
  | zero => intro s; exact List.Pairwise.nil
  | succ n ih =>
    intro s
    by_cases hlt : s.nextNoteTime < deadline
    · simp only [schedulerLoop, if_pos hlt]
      refine List.Pairwise.cons (fun e he => ?_) (ih _)
      have hmem :=
        (schedulerLoop_bounds bpm bpb deadline hb n (nextNote bpm bpb s)).1 e he
      exact lt_of_lt_of_le (nextNote_time_lt bpm bpb s hb) hmem.1
    · simp only [schedulerLoop, if_neg hlt]
      exact List.Pairwise.nil

/-- Bookkeeping of one scheduler loop run: consecutive emitted events differ
by exactly `60 / bpm`; an empty run leaves the state unchanged; the first
event is emitted at the entry `nextNoteTime`; and after the last event the
final `nextNoteTime` is that event's time plus `60 / bpm`. -/
theorem schedulerLoop_chain (bpm : ℚ) (bpb : ℕ) (deadline : ℚ) :
    ∀ fuel s,
      List.Chain' (fun a b : SchedEvent => b.time = a.time + 60 / a.bpm)
        (schedulerLoop bpm bpb deadline fuel s).1 ∧
      ((schedulerLoop bpm bpb deadline fuel s).1 = [] →
        (schedulerLoop bpm bpb deadline fuel s).2 = s) ∧
      (∀ e, (schedulerLoop bpm bpb deadline fuel s).1.head? = some e →
        e.time = s.nextNoteTime) ∧
      (∀ e, (schedulerLoop bpm bpb deadline fuel s).1.getLast? = some e →
        (schedulerLoop bpm bpb deadline fuel s).2.nextNoteTime = e.time + 60 / e.bpm) := by
  intro fuel
  induction fuel with
  | zero =>
    intro s
    simp [schedulerLoop]
  | succ n ih =>
    intro s
    by_cases hlt : s.nextNoteTime < deadline
    · simp only [schedulerLoop, if_pos hlt]
      obtain ⟨ch, hnil, hhead, hlast⟩ := ih (nextNote bpm bpb s)
      refine ⟨?_, ?_, ?_, ?_⟩
      · rw [List.chain'_cons']
        refine ⟨fun y hy => ?_, ch⟩
        have hyt := hhead y hy
        rw [hyt]
        simp [nextNote]
      · intro h
        exact absurd h (List.cons_ne_nil _ _)
      · intro e he
        rw [List.head?_cons, Option.some.injEq] at he
        rw [← he]
      · intro e he
        rcases hcase : (schedulerLoop bpm bpb deadline n (nextNote bpm bpb s)).1 with
          _ | ⟨x, xs⟩
        · rw [hcase] at he
          rw [List.getLast?_singleton, Option.some.injEq] at he
          rw [hnil hcase, ← he]
          simp [nextNote]
        · rw [hcase] at he
          rw [List.getLast?_cons_cons] at he
          exact hlast e (by rw [hcase]; exact he)
    · simp [schedulerLoop, hlt]

/-- `schedulerPoll` specializations of the loop invariants. -/
theorem schedulerPoll_bounds (bpm : ℚ) (bpb : ℕ) (ct : ℚ) (s : MetroState) (hb : 0 < bpm) :
    (∀ e ∈ (schedulerPoll bpm bpb ct s).1,
      s.nextNoteTime ≤ e.time ∧ e.time < (schedulerPoll bpm bpb ct s).2.nextNoteTime) ∧
    s.nextNoteTime ≤ (schedulerPoll bpm bpb ct s).2.nextNoteTime :=
  schedulerLoop_bounds bpm bpb _ hb _ s

/-- Strictly increasing times within one poll. -/
theorem schedulerPoll_pairwise (bpm : ℚ) (bpb : ℕ) (ct : ℚ) (s : MetroState) (hb : 0 < bpm) :
    List.Pairwise (fun a b : SchedEvent => a.time < b.time) (schedulerPoll bpm bpb ct s).1 :=
  schedulerLoop_pairwise bpm bpb _ hb _ s

/-- Chain bookkeeping of one poll. -/
theorem schedulerPoll_chain (bpm : ℚ) (bpb : ℕ) (ct : ℚ) (s : MetroState) :
    List.Chain' (fun a b : SchedEvent => b.time = a.time + 60 / a.bpm)
      (schedulerPoll bpm bpb ct s).1 ∧
    ((schedulerPoll bpm bpb ct s).1 = [] → (schedulerPoll bpm bpb ct s).2 = s) ∧
    (∀ e, (schedulerPoll bpm bpb ct s).1.head? = some e → e.time = s.nextNoteTime) ∧
    (∀ e, (schedulerPoll bpm bpb ct s).1.getLast? = some e →
      (schedulerPoll bpm bpb ct s).2.nextNoteTime = e.time + 60 / e.bpm) :=
  schedulerLoop_chain bpm bpb _ _ s

/-- The fuel supplied by `schedulerPoll` always completes the while loop:
afterwards the next beat lies at or beyond the lookahead deadline, so the
fuel-indexed loop coincides with the source's unbounded `while`. -/
theorem schedulerLoop_complete (bpm : ℚ) (bpb : ℕ) (deadline : ℚ) (hb : 0 < bpm) :
    ∀ fuel s, pollFuel bpm deadline s ≤ fuel →
      deadline ≤ (schedulerLoop bpm bpb deadline fuel s).2.nextNoteTime := by
  intro fuel
  induction fuel with
  | zero =>
    intro s hf
    simp only [schedulerLoop]
    have hc0 : ⌈(deadline - s.nextNoteTime) * bpm / 60⌉ ≤ 0 := by
      unfold pollFuel at hf
      omega
    have hx : (deadline - s.nextNoteTime) * bpm / 60 ≤ 0 := by
      exact_mod_cast Int.ceil_le.mp hc0
    by_contra hcon
    push_neg at hcon
    have h1 : 0 < (deadline - s.nextNoteTime) * bpm / 60 := by
      have hd : 0 < deadline - s.nextNoteTime := by linarith
      positivity
    linarith
  | succ n ih =>
    intro s hf
    by_cases hlt : s.nextNoteTime < deadline
    · simp only [schedulerLoop, if_pos hlt]
      apply ih
      have key : (deadline - (nextNote bpm bpb s).nextNoteTime) * bpm / 60
          = (deadline - s.nextNoteTime) * bpm / 60 - 1 := by
        simp only [nextNote]
        field_simp
        ring
      unfold pollFuel at hf ⊢
      rw [key, Int.ceil_sub_one]
      have hpos : 0 < (deadline - s.nextNoteTime) * bpm / 60 := by
        have hd : 0 < deadline - s.nextNoteTime := by linarith
        positivity
      have hc1 : 1 ≤ ⌈(deadline - s.nextNoteTime) * bpm / 60⌉ := Int.ceil_pos.mpr hpos
      omega
    · simp only [schedulerLoop, if_neg hlt]
      exact le_of_not_lt hlt

/-- Each poll pushes `nextNoteTime` to or beyond its lookahead deadline. -/
theorem schedulerPoll_complete (bpm : ℚ) (bpb : ℕ) (ct : ℚ) (s : MetroState) (hb : 0 < bpm) :
    ct + scheduleAheadTime ≤ (schedulerPoll bpm bpb ct s).2.nextNoteTime :=
  schedulerLoop_complete bpm bpb _ hb _ s (le_refl _)

/-- Bounds over a whole poll sequence: every scheduled event lies at or
after the initial `nextNoteTime` and strictly before the final one, which
never decreases. -/
theorem runPolls_bounds (bpb : ℕ) :
    ∀ (polls : List (ℚ × ℚ)) (s : MetroState), (∀ p ∈ polls, 0 < p.1) →
      (∀ e ∈ (runPolls bpb polls s).1,
        s.nextNoteTime ≤ e.time ∧ e.time < (runPolls bpb polls s).2.nextNoteTime) ∧
      s.nextNoteTime ≤ (runPolls bpb polls s).2.nextNoteTime := by
  intro polls
  induction polls with
  | nil =>
    intro s _
    exact ⟨fun e he => absurd he (List.not_mem_nil e), le_refl _⟩
  | cons p ps ih =>
    obtain ⟨b, ct⟩ := p
    intro s h
    have hb : 0 < b := h (b, ct) (List.mem_cons_self _ _)
    have hps : ∀ q ∈ ps, 0 < q.1 := fun q hq => h q (List.mem_cons_of_mem _ hq)
    simp only [runPolls]
    have hr := schedulerPoll_bounds b bpb ct s hb
    have hrest := ih ((schedulerPoll b bpb ct s).2) hps
    constructor
    · intro e he
      rcases List.mem_append.mp he with he1 | he2
      · obtain ⟨l1, l2⟩ := hr.1 e he1
        exact ⟨l1, lt_of_lt_of_le l2 hrest.2⟩
      · obtain ⟨l1, l2⟩ := hrest.1 e he2
        exact ⟨le_trans hr.2 l1, l2⟩
    · exact le_trans hr.2 hrest.2

/-- Strictly increasing scheduled times over a whole poll sequence. -/
theorem runPolls_pairwise (bpb : ℕ) :
    ∀ (polls : List (ℚ × ℚ)) (s : MetroState), (∀ p ∈ polls, 0 < p.1) →
      List.Pairwise (fun a b : SchedEvent => a.time < b.time) (runPolls bpb polls s).1 := by
  intro polls
  induction polls with
  | nil => intro s _; exact List.Pairwise.nil
  | cons p ps ih =>
    obtain ⟨b, ct⟩ := p
    intro s h
    have hb : 0 < b := h (b, ct) (List.mem_cons_self _ _)
    have hps : ∀ q ∈ ps, 0 < q.1 := fun q hq => h q (List.mem_cons_of_mem _ hq)
    simp only [runPolls]
    rw [List.pairwise_append]
    refine ⟨schedulerPoll_pairwise b bpb ct s hb, ih _ hps, ?_⟩
    intro x hx y hy
    have hxb := (schedulerPoll_bounds b bpb ct s hb).1 x hx
    have hyb := (runPolls_bounds bpb ps ((schedulerPoll b bpb ct s).2) hps).1 y hy
    exact lt_of_lt_of_le hxb.2 hyb.1

/-- Chain bookkeeping over a whole poll sequence: consecutive scheduled
events always differ by `60 / bpm` for the bpm under which the earlier
event was scheduled, including across poll boundaries and bpm changes. -/
theorem runPolls_chain (bpb : ℕ) :
    ∀ (polls : List (ℚ × ℚ)) (s : MetroState),
      List.Chain' (fun a b : SchedEvent => b.time = a.time + 60 / a.bpm)
        (runPolls bpb polls s).1 ∧
      ((runPolls bpb polls s).1 = [] → (runPolls bpb polls s).2 = s) ∧
      (∀ e, (runPolls bpb polls s).1.head? = some e → e.time = s.nextNoteTime) ∧
      (∀ e, (runPolls bpb polls s).1.getLast? = some e →
        (runPolls bpb polls s).2.nextNoteTime = e.time + 60 / e.bpm) := by
  intro polls
  induction polls with
  | nil =>
    intro s
    simp [runPolls]
  | cons p ps ih =>
    obtain ⟨b, ct⟩ := p
    intro s
    simp only [runPolls]
    obtain ⟨ch1, nil1, head1, last1⟩ := schedulerPoll_chain b bpb ct s
    obtain ⟨ch2, nil2, head2, last2⟩ := ih ((schedulerPoll b bpb ct s).2)
    refine ⟨?_, ?_, ?_, ?_⟩
    · rw [List.chain'_append]
      refine ⟨ch1, ch2, ?_⟩
      intro x hx y hy
      have hy2 := head2 y hy
      have hx2 := last1 x hx
      rw [hy2]
      exact hx2
    · intro happ
      rcases List.append_eq_nil.mp happ with ⟨h1, h2⟩
      exact (nil2 h2).trans (nil1 h1)
    · intro e he
      rcases hcase : (schedulerPoll b bpb ct s).1 with _ | ⟨x, xs⟩
      · rw [hcase, List.nil_append] at he
        rw [head2 e he, nil1 hcase]
      · rw [hcase, List.cons_append, List.head?_cons, Option.some.injEq] at he
        exact head1 e (by rw [hcase, List.head?_cons, he])
    · intro e he
      rcases hcase : (runPolls bpb ps ((schedulerPoll b bpb ct s).2)).1 with _ | ⟨y, ys⟩
      · rw [hcase, List.append_nil] at he
        rw [nil2 hcase]
        exact last1 e he
      · rw [hcase] at he
        rw [List.getLast?_append_of_ne_nil _ (List.cons_ne_nil y ys)] at he
        exact last2 e (by rw [hcase]; exact he)

/-- Running an extended poll sequence first replays the prefix exactly and
then continues from its final state: earlier scheduled beats do not depend
on later polls or bpm changes. -/
theorem runPolls_append (bpb : ℕ) :
    ∀ (ps1 ps2 : List (ℚ × ℚ)) (s : MetroState),
      runPolls bpb (ps1 ++ ps2) s
        = ((runPolls bpb ps1 s).1 ++ (runPolls bpb ps2 (runPolls bpb ps1 s).2).1,
           (runPolls bpb ps2 (runPolls bpb ps1 s).2).2) := by
  intro ps1
  induction ps1 with
  | nil => intro ps2 s; simp [runPolls]
  | cons p ps ih =>
    intro ps2 s
    obtain ⟨b, ct⟩ := p
    simp only [List.cons_append, runPolls, List.append_eq, ih, List.append_assoc]

/-- C1: over any sequence of scheduler polls with positive bpm, the
scheduled beat times are strictly increasing (no poll schedules a beat at
or before a previously scheduled one); consecutive scheduled events differ
by exactly `60 / bpm` seconds for the bpm in effect when the earlier event
was scheduled, so a bpm change between polls only changes the interval used
for beats scheduled after the change; every scheduled time lies strictly
below the final `nextNoteTime`, which never decreases across polls; and the
events of an extended poll sequence begin with exactly the events of its
prefix, so later polls never alter already-scheduled beats. -/
theorem metronome_scheduler_invariants (beatsPerBar : ℕ) (polls : List (ℚ × ℚ))
    (s : MetroState) (hbpm : ∀ p ∈ polls, 0 < p.1) :
    List.Pairwise (fun a b : SchedEvent => a.time < b.time)
      (runPolls beatsPerBar polls s).1 ∧
    List.Chain' (fun a b : SchedEvent => b.time = a.time + 60 / a.bpm)
      (runPolls beatsPerBar polls s).1 ∧
    (∀ e ∈ (runPolls beatsPerBar polls s).1,
      e.time < (runPolls beatsPerBar polls s).2.nextNoteTime) ∧
    s.nextNoteTime ≤ (runPolls beatsPerBar polls s).2.nextNoteTime ∧
    (∀ polls2 : List (ℚ × ℚ),
      (runPolls beatsPerBar (polls ++ polls2) s).1
        = (runPolls beatsPerBar polls s).1
          ++ (runPolls beatsPerBar polls2 (runPolls beatsPerBar polls s).2).1) :=
  ⟨runPolls_pairwise beatsPerBar polls s hbpm,
    (runPolls_chain beatsPerBar polls s).1,
    fun e he => ((runPolls_bounds beatsPerBar polls s hbpm).1 e he).2,
    (runPolls_bounds beatsPerBar polls s hbpm).2,
    fun ps2 => by rw [runPolls_append]⟩

/-- Witness for `metronome_scheduler_invariants`: the two-poll run
`demoPolls` from `demoState` has strictly increasing scheduled times. -/
theorem metronome_scheduler_invariants_witness :
    (∀ p ∈ demoPolls, 0 < p.1) ∧
    List.Pairwise (fun a b : SchedEvent => a.time < b.time)
      (runPolls 4 demoPolls demoState).1 :=
  ⟨by decide, (metronome_scheduler_invariants 4 demoPolls demoState (by decide)).1⟩

/-- C4: every `animate` tick and every manual-scroll event reports a
progress in `[0, 1]`; and when `maxScroll = scrollHeight - clientHeight`
is `≤ 0` the progress state is left untouched (so a progress of 0 remains
0) and the reached-end transition to PAUSED never fires — no division by
zero or spurious end-of-content when the content fits on screen. -/
theorem progress_in_bounds (speed dt maxScroll scrollTop progress : ℚ)
    (isScr : Bool) (s : PrompterFrame) :
    (0 ≤ s.progress → s.progress ≤ 1 →
      0 ≤ (prompterAnimate speed dt maxScroll isScr s).progress ∧
      (prompterAnimate speed dt maxScroll isScr s).progress ≤ 1) ∧
    (0 ≤ scrollTop → 0 ≤ progress → progress ≤ 1 →
      0 ≤ onScrollProgress maxScroll scrollTop progress ∧
      onScrollProgress maxScroll scrollTop progress ≤ 1) ∧
    (maxScroll ≤ 0 →
      (prompterAnimate speed dt maxScroll isScr s).progress = s.progress ∧
      (prompterAnimate speed dt maxScroll isScr s).playState = s.playState ∧
      onScrollProgress maxScroll scrollTop progress = progress) := by
  have hclamp : ∀ x : ℚ, 0 ≤ domClamp maxScroll x :=
    fun x => le_min (le_max_right _ _) (le_max_right _ _)
  refine ⟨fun h0 h1 => ?_, fun ht h0 h1 => ?_, fun hm => ?_⟩
  · by_cases hp : s.playState ≠ PlayState.playing
    · simp only [prompterAnimate, if_pos hp]
      exact ⟨h0, h1⟩
    · by_cases hscr : isScr = true
      · simp only [prompterAnimate, if_neg hp, if_pos hscr]
        exact ⟨h0, h1⟩
      · by_cases hmax : maxScroll > 0
        · simp only [prompterAnimate, if_neg hp, if_neg hscr, if_pos hmax]
          exact ⟨le_min (div_nonneg (hclamp _) hmax.le) zero_le_one, min_le_right _ _⟩
        · simp only [prompterAnimate, if_neg hp, if_neg hscr, if_neg hmax]
          exact ⟨h0, h1⟩
  · by_cases hmax : maxScroll > 0
    · simp only [onScrollProgress, if_pos hmax]
      exact ⟨le_min (div_nonneg ht hmax.le) zero_le_one, min_le_right _ _⟩
    · simp only [onScrollProgress, if_neg hmax]
      exact ⟨h0, h1⟩
  · have hmax : ¬maxScroll > 0 := not_lt.mpr hm
    refine ⟨?_, ?_, by simp only [onScrollProgress, if_neg hmax]⟩
    all_goals
      by_cases hp : s.playState ≠ PlayState.playing
      · simp only [prompterAnimate, if_pos hp]
      · by_cases hscr : isScr = true
        · simp only [prompterAnimate, if_neg hp, if_pos hscr]
        · simp only [prompterAnimate, if_neg hp, if_neg hscr, if_neg hmax]

/-- Witness for `progress_in_bounds`: a playing frame at progress 1/2 with
content of height 200 reports a progress inside `[0, 1]`, and with the
content fitting on screen the PAUSED transition does not fire. -/
theorem progress_in_bounds_witness :
    (0 ≤ (prompterAnimate 2 16 200 false midFrame).progress ∧
      (prompterAnimate 2 16 200 false midFrame).progress ≤ 1) ∧
    ((prompterAnimate 2 16 (-5) false midFrame).progress = midFrame.progress ∧
      (prompterAnimate 2 16 (-5) false midFrame).playState = midFrame.playState ∧
      onScrollProgress (-5) 3 (1 / 2) = 1 / 2) :=
  ⟨(progress_in_bounds 2 16 200 3 (1 / 2) false midFrame).1
      (by norm_num [midFrame]) (by norm_num [midFrame]),
    (progress_in_bounds 2 16 (-5) 3 (1 / 2) false midFrame).2.2 (by norm_num)⟩

/-- C3 fails on `Prompter.tsx`: `animate` adds
`scrollSpeed * 15 * deltaTime / 1000` to `scrollTop` without guarding the
sign of `deltaTime`, so a tick at `deltaTime = -1000` ms from position 100
moves the position backward to 70 instead of leaving it unchanged. -/
theorem prompter_negative_delta_regresses :
    (prompterAnimate 2 (-1000) 200 false midFrame).scrollTop = 70 ∧
    midFrame.scrollTop = 100 ∧ (70 : ℚ) < 100 := by
  refine ⟨?_, by norm_num [midFrame], by norm_num⟩
  norm_num [prompterAnimate, domClamp, midFrame, min_def, max_def]

/-- C3 (amended): while PLAYING with nonnegative speed, a tick with
`deltaTime ≥ 0` never moves the position backward in either animator; in
`LiveMode.scroll` a tick with `deltaTime ≤ 0` leaves the position exactly
unchanged; in `Prompter.animate` a tick with `deltaTime ≤ 0` can only move
the position backward (by `speed * 15 * deltaTime / 1000`, clamped below at
0), not forward. -/
theorem scroll_tick_monotone (speed dt maxScroll top : ℚ) (isScr : Bool)
    (s : PrompterFrame) :
    (0 ≤ speed → 0 ≤ dt → s.scrollTop ≤ max maxScroll 0 →
      s.scrollTop ≤ (prompterAnimate speed dt maxScroll isScr s).scrollTop) ∧
    (0 ≤ speed → dt ≤ 0 → 0 ≤ s.scrollTop →
      (prompterAnimate speed dt maxScroll isScr s).scrollTop ≤ s.scrollTop) ∧
    (0 ≤ speed → 0 ≤ dt → top ≤ max maxScroll 0 →
      top ≤ liveModeScroll speed dt maxScroll top) ∧
    (0 ≤ speed → dt ≤ 0 → liveModeScroll speed dt maxScroll top = top) := by
  have hTopEq : (prompterAnimate speed dt maxScroll isScr s).scrollTop
      = s.scrollTop ∨
      (prompterAnimate speed dt maxScroll isScr s).scrollTop
      = domClamp maxScroll (s.scrollTop + speed * 15 * dt / 1000) := by
    by_cases hp : s.playState ≠ PlayState.playing
    · exact Or.inl (by simp only [prompterAnimate, if_pos hp])
    · by_cases hscr : isScr = true
      · exact Or.inl (by simp only [prompterAnimate, if_neg hp, if_pos hscr])
      · by_cases hmax : maxScroll > 0
        · exact Or.inr (by simp only [prompterAnimate, if_neg hp, if_neg hscr, if_pos hmax])
        · exact Or.inr (by simp only [prompterAnimate, if_neg hp, if_neg hscr, if_neg hmax])
  refine ⟨fun hs hd hin => ?_, fun hs hd h0 => ?_, fun hs hd hin => ?_, fun hs hd => ?_⟩
  · have hpx : 0 ≤ speed * 15 * dt / 1000 := by positivity
    rcases hTopEq with h | h
    · rw [h]
    · rw [h]
      exact le_min (le_max_of_le_left (by linarith)) hin
  · have hpx : speed * 15 * dt / 1000 ≤ 0 := by
      have : speed * 15 * dt ≤ 0 :=
        mul_nonpos_iff.mpr (Or.inl ⟨by positivity, hd⟩)
      linarith [div_nonpos_of_nonpos_of_nonneg this (by norm_num : (0:ℚ) ≤ 1000)]
    rcases hTopEq with h | h
    · rw [h]
    · rw [h]
      exact le_trans (min_le_left _ _) (max_le (by linarith) h0)
  · have hmv : 0 ≤ speed * dt := mul_nonneg hs hd
    by_cases hpos : speed * dt > 0
    · simp only [liveModeScroll, if_pos hpos, domClamp]
      exact le_min (le_max_of_le_left (by linarith)) hin
    · simp only [liveModeScroll, if_neg hpos]
      exact le_refl _
  · have hmv : ¬speed * dt > 0 := by
      have : speed * dt ≤ 0 := mul_nonpos_iff.mpr (Or.inl ⟨hs, hd⟩)
      exact not_lt.mpr this
    simp only [liveModeScroll, if_neg hmv]

/-- Witness for `scroll_tick_monotone`: a forward tick of 16 ms at speed 2
from position 100 does not move the prompter backward, and a LiveMode tick
with `deltaTime = -1/2` leaves the position unchanged. -/
theorem scroll_tick_monotone_witness :
    (100 : ℚ) ≤ (prompterAnimate 2 16 200 false midFrame).scrollTop ∧
    liveModeScroll 30 (-1 / 2) 200 100 = 100 :=
  ⟨by
      have h := (scroll_tick_monotone 2 16 200 100 false midFrame).1
        (by norm_num) (by norm_num) (by norm_num [midFrame])
      simpa [midFrame] using h,
    (scroll_tick_monotone 30 (-1 / 2) 200 100 false midFrame).2.2.2
      (by norm_num) (by norm_num)⟩

/-- C9 fails on the editor write path: `SongEditor` stores
`parseInt(bpmInput)` into the song verbatim (only the HTML `min`/`max`
attributes limit the field, not the code), so a typed 999 is persisted
unclamped, outside `[30, 300]`. -/
theorem editor_bpm_unclamped :
    (editorSetBpm sampleSong 999).metronome.bpm = 999 ∧ ¬((999 : ℚ) ≤ 300) :=
  ⟨rfl, by norm_num⟩

/-- C9 (amended): the tap-tempo averaging path and the pedal/button
`adjustBpm` path clamp the bpm to `[30, 300]` before it is persisted or
used; the editor's bpm field stores the typed value into the song record
without clamping. -/
theorem bpm_clamp_paths :
    (∀ bpm delta : ℚ, 30 ≤ adjustBpmValue bpm delta ∧ adjustBpmValue bpm delta ≤ 300) ∧
    (∀ taps : List ℚ, ∀ b : ℚ, tapTempoBpm taps = some b → 30 ≤ b ∧ b ≤ 300) ∧
    (∀ s v, (editorSetBpm s v).metronome.bpm = v) := by
  refine ⟨fun bpm delta => ⟨le_max_left _ _, max_le (by norm_num) (min_le_left _ _)⟩,
    fun taps b hb => ?_, fun s v => rfl⟩
  unfold tapTempoBpm at hb
  split_ifs at hb with h
  obtain rfl : max 30 (min 300 ((round
      ((60000 : ℚ) / ((tapIntervals taps).sum / ((tapIntervals taps).length : ℚ)))) : ℚ)) = b :=
    Option.some.inj hb
  exact ⟨le_max_left _ _, max_le (by norm_num) (min_le_left _ _)⟩

/-- Witness for `bpm_clamp_paths`: two taps 500 ms apart yield a persisted
bpm of 120, inside `[30, 300]`. -/
theorem bpm_clamp_paths_witness :
    tapTempoBpm [0, 500] = some 120 ∧ (30 : ℚ) ≤ 120 ∧ (120 : ℚ) ≤ 300 := by
  have heval : tapTempoBpm [0, 500] = some 120 := by
    norm_num [tapTempoBpm, tapIntervals]
  exact ⟨heval, bpm_clamp_paths.2.1 [0, 500] 120 heval⟩

/-- Re-importing the serialization of a well-formed stored song reproduces
it exactly: every present field survives the default merge, and `id` and
`createdAt` are preserved. -/
theorem importOne_songToRaw (s : Song) (now : ℚ) (hid : s.id ≠ "")
    (htitle : s.title ≠ "") (hc : s.createdAt ≠ 0) :
    importOne (songToRaw s) now = some s := by
  have h1 : truthyStr (some s.id) = true := by simp [truthyStr, hid]
  have h2 : truthyStr (some s.title) = true := by simp [truthyStr, htitle]
  simp [importOne, songToRaw, h1, h2, hc]

/-- Importing the serializations of well-formed stored songs keeps all of
them, in order. -/
theorem filterMap_importOne_map (l : List Song) (now : ℚ)
    (h : ∀ s ∈ l, s.id ≠ "" ∧ s.title ≠ "" ∧ s.createdAt ≠ 0) :
    (l.map songToRaw).filterMap (fun r => importOne r now) = l := by
  induction l with
  | nil => rfl
  | cons a t ih =>
    obtain ⟨h1, h2, h3⟩ := h a (List.mem_cons_self a t)
    rw [List.map_cons, List.filterMap_cons, importOne_songToRaw a now h1 h2 h3,
      ih (fun s hs => h s (List.mem_cons_of_mem a hs))]

/-- `getAllSongs` returns a permutation of the stored songs. -/
theorem getAllSongs_perm (stored : List Song) : (getAllSongs stored).Perm stored :=
  List.perm_insertionSort songLE stored

/-- Unfolding of `importLibrary` on the library-object shape. -/
theorem importLibrary_lib (v : Option ℚ) (l : List RawSong) (now : ℚ) :
    importLibrary (.lib v l) now =
      if (l.filterMap (fun r => importOne r now)).length = 0 ∧ l.length > 0 then
        .error "No valid songs found (IDs or Titles missing)."
      else
        .ok (l.filterMap (fun r => importOne r now),
          (l.filterMap (fun r => importOne r now)).length) := rfl

/-- C7 fails as stated: a library containing a song whose title is the
empty string exports it, but re-importing the export skips the entry (the
validation requires a truthy `id` and `title`) and, all entries having been
skipped, the import throws instead of reproducing the library. -/
theorem roundtrip_empty_title_fails :
    importLibrary (exportLibrary [emptyTitleSong]) 1000
      = .error "No valid songs found (IDs or Titles missing)." := rfl

/-- C7 (amended): for every library in which each song has a nonempty id,
a nonempty title and a nonzero createdAt, exporting and then importing the
export reproduces exactly the same set of songs — the sorted stored list,
field for field, with the optional `order` preserved (present or absent
alike in both copies) — and reports their number.  (A song with an empty
title or id is skipped on import, and an import in which every entry is
skipped throws, so such libraries do not round-trip.) -/
theorem export_import_roundtrip (stored : List Song) (now : ℚ)
    (h : ∀ s ∈ stored, s.id ≠ "" ∧ s.title ≠ "" ∧ s.createdAt ≠ 0) :
    importLibrary (exportLibrary stored) now
      = .ok (getAllSongs stored, (getAllSongs stored).length) ∧
    (getAllSongs stored).Perm stored := by
  have hperm := getAllSongs_perm stored
  have hall : ∀ s ∈ getAllSongs stored, s.id ≠ "" ∧ s.title ≠ "" ∧ s.createdAt ≠ 0 :=
    fun s hs => h s (hperm.mem_iff.mp hs)
  refine ⟨?_, hperm⟩
  unfold exportLibrary
  rw [importLibrary_lib, filterMap_importOne_map _ now hall, if_neg]
  rintro ⟨h0, hpos⟩
  rw [List.length_map] at hpos
  omega

/-- Witness for `export_import_roundtrip`: a one-song library of
`sampleSong` round-trips to itself with count 1. -/
theorem export_import_roundtrip_witness :
    importLibrary (exportLibrary [sampleSong]) 1000
      = .ok (getAllSongs [sampleSong], (getAllSongs [sampleSong]).length) ∧
    (getAllSongs [sampleSong]).Perm [sampleSong] :=
  export_import_roundtrip [sampleSong] 1000
    (by intro s hs; rw [List.mem_singleton] at hs; subst hs
        refine ⟨?_, ?_, ?_⟩ <;> decide)

/-- C8 fails as stated: importing `{"title":"X","lyrics":"la"}` (no id)
does not return a count of 0 — `importLibrary` throws
`'No valid songs found (IDs or Titles missing).'` because the only entry
was skipped. -/
theorem import_no_id_throws :
    importLibrary (.single rawNoId) 1000
      = .error "No valid songs found (IDs or Titles missing)." := rfl

/-- C8 (amended): importing the single song without id skips the entry but
throws (rather than returning count 0); importing the same object with an
id is accepted with count 1 and the stored song receives the default
fontsize 48, scrollspeed 30, threshold -35 and metronome (120 bpm, 4
beats, 1000 Hz, disabled); an entry lacking both identifier and title is
always skipped. -/
theorem import_tolerance (now : ℚ) :
    importLibrary (.single rawNoId) now
      = .error "No valid songs found (IDs or Titles missing)." ∧
    importLibrary (.single rawWithId) now =
      .ok ([{ id := "abc", title := "X", lyrics := "la", fontsize := 48,
              scrollspeed := 30, audioTrigger := ⟨-35⟩,
              metronome := ⟨120, 4, 1000, false⟩,
              order := none, createdAt := now }], 1) ∧
    (∀ r : RawSong, r.id = none → r.title = none → importOne r now = none) := by
  refine ⟨rfl, rfl, fun r h1 h2 => ?_⟩
  simp [importOne, h1, truthyStr]

/-- Witness for `import_tolerance`: the entry with neither id nor title is
skipped. -/
theorem import_tolerance_witness : importOne rawEmpty 1000 = none :=
  (import_tolerance 1000).2.2 rawEmpty rfl rfl

/-- The sign of `localeCompare` is the order on titles. -/
theorem localeCompare_nonpos {a b : String} : localeCompare a b ≤ 0 ↔ a ≤ b := by
  unfold localeCompare
  split_ifs with h1 h2
  · exact iff_of_true (by norm_num) h1.le
  · exact iff_of_false (by norm_num) (not_le.mpr h2)
  · exact iff_of_true le_rfl (not_lt.mp h2)

/-- Characterization of the comparator ordering: lexicographic on the
effective order (missing = `MAX_SAFE_INTEGER`) then the title. -/
theorem songLE_iff {a b : Song} :
    songLE a b ↔ (effOrder a < effOrder b ∨
      (effOrder a = effOrder b ∧ a.title ≤ b.title)) := by
  unfold songLE songCompare
  by_cases h : effOrder a ≠ effOrder b
  · rw [if_pos h]
    constructor
    · intro hle
      have hle' : effOrder a ≤ effOrder b := by linarith
      exact Or.inl (lt_of_le_of_ne hle' h)
    · rintro (hlt | ⟨heq, -⟩)
      · linarith
      · exact absurd heq h
  · rw [if_neg h]
    push_neg at h
    rw [localeCompare_nonpos]
    constructor
    · intro ht
      exact Or.inr ⟨h, ht⟩
    · rintro (hlt | ⟨-, ht⟩)
      · exact absurd hlt (by rw [h]; exact lt_irrefl _)
      · exact ht

instance : IsTotal Song songLE :=
  ⟨fun a b => by
    rw [songLE_iff, songLE_iff]
    rcases lt_trichotomy (effOrder a) (effOrder b) with h | h | h
    · exact Or.inl (Or.inl h)
    · rcases le_total a.title b.title with ht | ht
      · exact Or.inl (Or.inr ⟨h, ht⟩)
      · exact Or.inr (Or.inr ⟨h.symm, ht⟩)
    · exact Or.inr (Or.inl h)⟩

instance : IsTrans Song songLE :=
  ⟨fun a b c hab hbc => by
    rw [songLE_iff] at hab hbc ⊢
    rcases hab with h1 | ⟨h1, t1⟩ <;> rcases hbc with h2 | ⟨h2, t2⟩
    · exact Or.inl (h1.trans h2)
    · exact Or.inl (h1.trans_eq h2)
    · exact Or.inl (h1.trans_lt h2)
    · exact Or.inr ⟨h1.trans h2, t1.trans t2⟩⟩

/-- C10 fails as stated: a song with an explicit
`order = Number.MAX_SAFE_INTEGER` ties with the sentinel used for songs
lacking an order field, so the tie is broken by title and the order-less
song can come first. -/
theorem no_order_song_not_after :
    getAllSongs [maxOrderSong, noOrderSong] = [noOrderSong, maxOrderSong] ∧
    noOrderSong.order = none ∧ maxOrderSong.order = some MAX_SAFE_INTEGER := by
  have hBA : ¬("B" ≤ "A") := by
    intro hle
    rw [String.le_iff_toList_le] at hle
    revert hle
    decide
  have hnle : ¬songLE maxOrderSong noOrderSong := by
    rw [songLE_iff]
    rintro (hlt | ⟨-, hle⟩)
    · exact absurd hlt (by decide)
    · exact hBA hle
  refine ⟨?_, rfl, rfl⟩
  simp [getAllSongs, hnle]

/-- C10 (amended): `getAllSongs` returns a permutation of the stored songs
sorted by the comparator ordering: ascending effective order, where a
missing `order` field counts as `Number.MAX_SAFE_INTEGER`, with ties broken
by title comparison.  Hence order-less songs come after every song whose
order is below `MAX_SAFE_INTEGER`, but tie with an explicit order equal to
it. -/
theorem getAllSongs_sorted (stored : List Song) :
    (getAllSongs stored).Perm stored ∧
    List.Sorted songLE (getAllSongs stored) ∧
    (∀ a b : Song, songLE a b ↔ (effOrder a < effOrder b ∨
      (effOrder a = effOrder b ∧ a.title ≤ b.title))) :=
  ⟨getAllSongs_perm stored, List.sorted_insertionSort songLE stored,
    fun _ _ => songLE_iff⟩

end SongBuddy
